import Mathlib

/-!
Shallow embedding of the control-chart zone classifier and pattern-rule
engine of `index.js` (the divinator package), together with theorems about
the specification claims.

Modelling conventions:
* JavaScript numbers are modelled as rationals (`ℚ`).  Every comparison and
  arithmetic operation of the embedded code is order/equality logic that is
  exact on the rational inputs used here; floating-point rounding is not
  modelled.
* The descriptive statistics (`ss.mean`, `ss.standardDeviation`,
  `ss.median`, `ss.sampleSkewness`, `jarqueBera`, the outlier filters and
  the Poisson table) are external collaborators per the spec (§1, §4.4):
  the engine receives their outputs through the `ExtStats` record.  The
  exact rational functions `ssMean` and `ssVariance` are defined as well
  and are used to justify the concrete collaborator values supplied in the
  concrete instances appearing in counterexamples and witnesses
  (`ss.standardDeviation` is the square root of the population variance,
  so `ssVariance = 0` forces standard deviation `0`, and
  `ssVariance = q ^ 2` with `0 ≤ q` forces standard deviation `q`).
* Dynamic typing matters in the rule loop of `patterns`: it compares the
  elements of `z["zones"]` (an array of the three zone-boundary objects)
  with the strings "X", "A", "C".  `JsVal` and `jsEqStr` model JavaScript
  strict equality (`===`) on the values involved: strict equality between
  values of different runtime types (object vs string, undefined vs
  string) is `false`.
-/

/-- Zone-boundary record built by the `Zone` constructor: for zone name
`"C"`, `"B"`, `"A"` with factor k = 1, 2, 3 it stores
`max = mean + std * k` and `min = mean - std * k`. -/
structure ZoneRec where
  name : String
  max : ℚ
  min : ℚ
deriving DecidableEq

/-- The `this.zones` array of the `Zone` constructor:
`["C","B","A"].map((zone, index) => {...factor = index + 1...})`. -/
def mkZones (mean std : ℚ) : List ZoneRec :=
  [ { name := "C", max := mean + std * 1, min := mean - std * 1 },
    { name := "B", max := mean + std * 2, min := mean - std * 2 },
    { name := "A", max := mean + std * 3, min := mean - std * 3 } ]

/-- The `Zone.which` method: iterate `this.zones` in stored order (C, then
B, then A) and return the first zone name with `zone.min ≤ val < zone.max`
(the loop's early `return`); return "X" after the loop otherwise. -/
def Zone.which (zones : List ZoneRec) (v : ℚ) : String :=
  match zones with
  | [] => "X"
  | zr :: rest => if zr.min ≤ v ∧ v < zr.max then zr.name else Zone.which rest v

/-- Models `validate`: on an array of numbers the `parseFloat` coercion is
the identity.  The error cases it raises (non-array input, no finite
entries) lie outside the valid samples the claims quantify over. -/
def validate (data : List ℚ) : List ℚ := data

/-- Exact rational mean; models `ss.mean` (sum divided by length). -/
def ssMean (data : List ℚ) : ℚ := data.sum / data.length

/-- Exact rational population variance; models `ss.variance`.
`ss.standardDeviation` is its square root. -/
def ssVariance (data : List ℚ) : ℚ :=
  ((data.map (fun x => (x - ssMean data) ^ 2)).sum) / data.length

/-- The `Zone` class instance state after the constructor ran. -/
structure Zone where
  data : List ℚ
  mean : ℚ
  std : ℚ
  median : ℚ
  zones : List ZoneRec
  dataZones : List String
deriving DecidableEq

/-- The `Zone` constructor: validate the data, record the collaborator
statistics (`ss.mean`, `ss.standardDeviation`, `ss.median`), build
`this.zones` and classify every data point into `this.dataZones`. -/
def Zone.make (data : List ℚ) (mean std median : ℚ) : Zone :=
  let vd := validate data
  let zs := mkZones mean std
  { data := vd, mean := mean, std := std, median := median,
    zones := zs, dataZones := vd.map (fun v => Zone.which zs v) }

/-- Runtime values appearing in the rule loop's comparisons: reading
`z["zones"][j]` yields either a zone-boundary object or `undefined`. -/
inductive JsVal where
  | undef : JsVal
  | strV : String → JsVal
  | zoneObj : ZoneRec → JsVal
deriving DecidableEq

/-- The array read `z["zones"][j]` as a JavaScript value. -/
def jsZoneAt (zones : List ZoneRec) (j : ℕ) : JsVal :=
  match zones.get? j with
  | some zr => JsVal.zoneObj zr
  | none => JsVal.undef

/-- JavaScript strict equality `v === s` against a string literal: `true`
only when `v` is the same string; across runtime types (object vs string,
undefined vs string) strict equality is `false`. -/
def jsEqStr : JsVal → String → Bool
  | JsVal.strV t, s => t = s
  | JsVal.zoneObj _, _ => false
  | JsVal.undef, _ => false

/-- JavaScript strict inequality `v !== s` against a string literal. -/
def jsNeStr (v : JsVal) (s : String) : Bool := !(jsEqStr v s)

/-- Spec-side zone classification, modelled from the spec's words (§4.1):
classify `v` into the first zone, checked in the order C then B then A,
whose half-open interval `[mean - k·σ, mean + k·σ)` contains `v`
(membership test `min ≤ v < max`), and label "X" otherwise.  Used only to
compare against the code's `Zone.which`. -/
def whichSpec (mean std v : ℚ) : String :=
  if mean - 1 * std ≤ v ∧ v < mean + 1 * std then "C"
  else if mean - 2 * std ≤ v ∧ v < mean + 2 * std then "B"
  else if mean - 3 * std ≤ v ∧ v < mean + 3 * std then "A"
  else "X"

/-- Strict nesting of the three zone-boundary records, in the stored order
`[C, B, A]`: the A interval strictly contains B, which strictly contains
C. -/
def zonesStrictlyNested : List ZoneRec → Prop
  | [c, b, a] => a.min < b.min ∧ b.min < c.min ∧ c.max < b.max ∧ b.max < a.max
  | _ => False

instance (zs : List ZoneRec) : Decidable (zonesStrictlyNested zs) := by
  unfold zonesStrictlyNested
  split <;> infer_instance

/-!
## The rule loop of `patterns`

The loop header is `for (let i = 0; i < zoneVals.length; i++)` with
`zoneVals = z["zones"]`: it ranges over the three zone-boundary records,
not over the per-point labels.  Each rule's inner `j`-loop is modelled by
a structurally recursive "go" function over the list of window indices
(`List.range' i L` is `[i, i+1, ..., i+L-1]`); the guard
`z["zones"][j] !== undefined` (resp. `_data[j] !== undefined`) is the
`Option` match on `zones.get? j` (resp. `data.get? j`).
-/

/-- Shared shape of the bravo/charlie/foxtrot/golf inner loops: for every
in-bounds `j` push `j` onto `pts` and bump the counter when the rule's
test on `z["zones"][j]` holds. -/
def zoneCountGo (zones : List ZoneRec) (f : ZoneRec → Bool) :
    List ℕ → List ℕ → ℕ → List ℕ × ℕ
  | [], pts, cnt => (pts, cnt)
  | j :: rest, pts, cnt =>
    match zones.get? j with
    | none => zoneCountGo zones f rest pts cnt
    | some zr => zoneCountGo zones f rest (pts ++ [j]) (if f zr then cnt + 1 else cnt)

/-- Bravo test on `z["zones"][j]`:
`z["zones"][j] === "A" || z["zones"][j] === "X"`. -/
def bravoTest (zr : ZoneRec) : Bool :=
  jsEqStr (JsVal.zoneObj zr) "A" || jsEqStr (JsVal.zoneObj zr) "X"

/-- Charlie/foxtrot test on `z["zones"][j]`: `z["zones"][j] !== "C"`. -/
def notCTest (zr : ZoneRec) : Bool := jsNeStr (JsVal.zoneObj zr) "C"

/-- Golf test on `z["zones"][j]`: `z["zones"][j] === "C"`. -/
def isCTest (zr : ZoneRec) : Bool := jsEqStr (JsVal.zoneObj zr) "C"

/-- Delta inner loop: state is (`pts`, `above`, `_delta`); `above` is set
from the first pushed point (`_data[j] > mean`), and the two separate
`if` statements bump `_delta` when the point is strictly on the recorded
side of the mean. -/
def deltaGo (data : List ℚ) (mean : ℚ) :
    List ℕ → List ℕ → Option Bool → ℕ → List ℕ × ℕ
  | [], pts, _, cnt => (pts, cnt)
  | j :: rest, pts, above, cnt =>
    match data.get? j with
    | none => deltaGo data mean rest pts above cnt
    | some d =>
      let pts2 := pts ++ [j]
      let ab := if pts2.length = 1 then some (decide (d > mean)) else above
      let cnt2 := if ab = some true ∧ d > mean then cnt + 1
                  else if ab = some false ∧ d < mean then cnt + 1 else cnt
      deltaGo data mean rest pts2 ab cnt2

/-- The delta window scan starting at `i` (window length 7). -/
def deltaScan (data : List ℚ) (mean : ℚ) (i : ℕ) : List ℕ × ℕ :=
  deltaGo data mean (List.range' i 7) [] none 0

/-- Echo inner loop: state is (`pts`, `prev`, `dir`, `_echo`); the first
point is always taken, the second fixes `dir` via
`_data[j] > prev ? "up" : "down"`, and later points are taken only when
they strictly continue `dir`; a rejected point is skipped (no `break`). -/
def echoGo (data : List ℚ) :
    List ℕ → List ℕ → ℚ → String → ℕ → List ℕ × ℕ
  | [], pts, _, _, cnt => (pts, cnt)
  | j :: rest, pts, prev, dir, cnt =>
    match data.get? j with
    | none => echoGo data rest pts prev dir cnt
    | some d =>
      if pts.length = 0 then echoGo data rest (pts ++ [j]) d dir (cnt + 1)
      else if pts.length = 1 then
        echoGo data rest (pts ++ [j]) d (if d > prev then "up" else "down") (cnt + 1)
      else if dir = "up" ∧ d > prev then echoGo data rest (pts ++ [j]) d dir (cnt + 1)
      else if dir = "down" ∧ d < prev then echoGo data rest (pts ++ [j]) d dir (cnt + 1)
      else echoGo data rest pts prev dir cnt

/-- The echo window scan starting at `i` (window length 7); `prev` and
`dir` start as `0` and `""` as in the source. -/
def echoScan (data : List ℚ) (i : ℕ) : List ℕ × ℕ :=
  echoGo data (List.range' i 7) [] 0 "" 0

/-- Hotel inner loop: alternation tracking with genuine `break`s —
a repeated value breaks, and a same-direction step breaks; the final
fall-through of the branch chain pushes the point and flips nothing. -/
def hotelGo (data : List ℚ) :
    List ℕ → List ℕ → ℚ → String → ℕ → List ℕ × ℕ
  | [], pts, _, _, cnt => (pts, cnt)
  | j :: rest, pts, prev, dir, cnt =>
    match data.get? j with
    | none => hotelGo data rest pts prev dir cnt
    | some d =>
      if pts.length = 0 then hotelGo data rest (pts ++ [j]) d dir (cnt + 1)
      else if d = prev then (pts, cnt)
      else if pts.length = 1 then
        hotelGo data rest (pts ++ [j]) d (if d > prev then "up" else "down") (cnt + 1)
      else if d > prev ∧ dir = "down" then hotelGo data rest (pts ++ [j]) d "up" (cnt + 1)
      else if d < prev ∧ dir = "down" then (pts, cnt)
      else if d < prev ∧ dir = "up" then hotelGo data rest (pts ++ [j]) d "down" (cnt + 1)
      else if d > prev ∧ dir = "up" then (pts, cnt)
      else hotelGo data rest (pts ++ [j]) d dir (cnt + 1)

/-- The hotel window scan starting at `i` (window length 14). -/
def hotelScan (data : List ℚ) (i : ℕ) : List ℕ × ℕ :=
  hotelGo data (List.range' i 14) [] 0 "" 0

/-!
## Collaborator statistics and the report structures

`patterns` stores many values that come straight from the external
statistics collaborators (spec §1: descriptive statistics, outlier
filters, normality tests, arbitrary-precision Poisson arithmetic are out
of the core and consumed via narrow interfaces).  `ExtStats` is the
record of those collaborator outputs; the engine's own logic (zones, rule
windows, sigma ranges, spread) is computed here from `mean`/`std`/data
exactly as in the source.  Field name mapping: `minV`/`maxV` are the
source's `min`/`max`, `mad` is `medianAbsoluteDeviation`.
-/

structure ExtStats where
  mean : ℚ
  std : ℚ
  median : ℚ
  minV : ℚ
  maxV : ℚ
  skewness : ℚ
  kurtosis : ℚ
  mad : ℚ
  mode : ℚ
  sampleCorrelation : ℚ
  jarqueBera : ℚ × ℚ
  outliers : List ℚ × List ℚ × List ℚ
  zScoreMax : ℚ
  zScoreMin : ℚ
  poissonFn : ℚ → ℚ

/-- The result object `p` of `patterns` before any collapsing.  `sigma1`
… `sigma5` are the source's `"1sigma"` … `"5sigma"` two-element arrays;
`alpha` is a flat array of indices (the source pushes bare indices), the
other seven rule fields are arrays of runs. -/
structure Report where
  sigma1 : List ℚ
  sigma2 : List ℚ
  sigma3 : List ℚ
  sigma4 : List ℚ
  sigma5 : List ℚ
  jarqueBera : ℚ × ℚ
  kurtosis : ℚ
  maxV : ℚ
  mean : ℚ
  median : ℚ
  mad : ℚ
  minV : ℚ
  mode : ℚ
  outliers : List ℚ × List ℚ × List ℚ
  sampleCorrelation : ℚ
  skewness : ℚ
  spread : ℚ
  standardDeviation : ℚ
  pValue : ℚ
  zScoreMin : ℚ
  poisson : List (ℚ × ℚ)
  alpha : List ℕ
  bravo : List (List ℕ)
  charlie : List (List ℕ)
  delta : List (List ℕ)
  echo : List (List ℕ)
  foxtrot : List (List ℕ)
  golf : List (List ℕ)
  hotel : List (List ℕ)
deriving DecidableEq

/-- The shape of `collapse`'s output on a report: every field that the
collapse loop processes (a non-empty array: the five sigma pairs, and any
non-empty rule field, including flat `alpha`) becomes an array of runs;
all other fields keep their values. -/
structure CollapsedReport where
  sigma1 : List (List ℚ)
  sigma2 : List (List ℚ)
  sigma3 : List (List ℚ)
  sigma4 : List (List ℚ)
  sigma5 : List (List ℚ)
  jarqueBera : ℚ × ℚ
  kurtosis : ℚ
  maxV : ℚ
  mean : ℚ
  median : ℚ
  mad : ℚ
  minV : ℚ
  mode : ℚ
  outliers : List ℚ × List ℚ × List ℚ
  sampleCorrelation : ℚ
  skewness : ℚ
  spread : ℚ
  standardDeviation : ℚ
  pValue : ℚ
  zScoreMin : ℚ
  poisson : List (ℚ × ℚ)
  alpha : List (List ℕ)
  bravo : List (List ℕ)
  charlie : List (List ℕ)
  delta : List (List ℕ)
  echo : List (List ℕ)
  foxtrot : List (List ℕ)
  golf : List (List ℕ)
  hotel : List (List ℕ)
deriving DecidableEq

/-- The `patterns` function (uncollapsed result).  The data is validated,
the collaborator statistics are taken from `st`, the `Zone` boundary array
is built from `mean`/`std`, and the rule loop runs with
`i < z["zones"].length` — the length of the three-element boundary array.
`poisson` stores one entry per data value via the external Poisson
collaborator (the JS object keys each value once; duplicate keys receive
the same value from the pure collaborator, and no claim reads this
field). -/
def patterns (data : List ℚ) (st : ExtStats) : Report :=
  let vd := validate data
  let zones := mkZones st.mean st.std
  let idxs := List.range zones.length
  { sigma1 := [st.mean - st.std, st.mean + st.std]
    sigma2 := [st.mean - st.std * 2, st.mean + st.std * 2]
    sigma3 := [st.mean - st.std * 3, st.mean + st.std * 3]
    sigma4 := [st.mean - st.std * 4, st.mean + st.std * 4]
    sigma5 := [st.mean - st.std * 5, st.mean + st.std * 5]
    jarqueBera := st.jarqueBera
    kurtosis := st.kurtosis
    maxV := st.maxV
    mean := st.mean
    median := st.median
    mad := st.mad
    minV := st.minV
    mode := st.mode
    outliers := st.outliers
    sampleCorrelation := st.sampleCorrelation
    skewness := st.skewness
    spread := st.maxV - st.minV
    standardDeviation := st.std
    pValue := st.zScoreMax
    zScoreMin := st.zScoreMin
    poisson := vd.map (fun v => (v, st.poissonFn v))
    alpha := idxs.filter (fun i => jsEqStr (jsZoneAt zones i) "X")
    bravo := idxs.filterMap (fun i =>
      let r := zoneCountGo zones bravoTest (List.range' i 3) [] 0
      if 2 ≤ r.2 ∧ r.1.length = 3 then some r.1 else none)
    charlie := idxs.filterMap (fun i =>
      let r := zoneCountGo zones notCTest (List.range' i 5) [] 0
      if 4 ≤ r.2 ∧ r.1.length = 5 then some r.1 else none)
    delta := idxs.filterMap (fun i =>
      let r := deltaScan vd st.mean i
      if 7 ≤ r.2 then some r.1 else none)
    echo := idxs.filterMap (fun i =>
      let r := echoScan vd i
      if 7 ≤ r.2 then some r.1 else none)
    foxtrot := idxs.filterMap (fun i =>
      let r := zoneCountGo zones notCTest (List.range' i 8) [] 0
      if 8 ≤ r.2 then some r.1 else none)
    golf := idxs.filterMap (fun i =>
      let r := zoneCountGo zones isCTest (List.range' i 15) [] 0
      if 15 ≤ r.2 then some r.1 else none)
    hotel := idxs.filterMap (fun i =>
      let r := hotelScan vd i
      if 14 ≤ r.2 then some r.1 else none) }

/-!
## The `collapse` function

`collapse` iterates the report's keys.  A value that is a non-empty array
is flattened (`concat`), deduplicated (`new Set`), numerically sorted,
and rebuilt into runs; every other value (numbers and plain objects,
whose `.length` is `undefined`) passes through unchanged.  The run
rebuilding loop runs `i` from `1` to `z.length` inclusive; the
non-consecutive branch pushes the current run string and then resets it
only under the truthiness test `if (z[i])` — so a `0` that follows a gap
is dropped and the previous run is pushed again (and may keep growing).
The string round trip `str.split(":").map(parseFloat)` is the identity on
the numbers involved and is not modelled separately.
-/

/-- Run-rebuilding loop over the sorted deduplicated tail, for index
lists.  Arguments: remaining elements, `prev`, current run `str`. -/
def buildRunsN : List ℕ → ℕ → List ℕ → List (List ℕ)
  | [], _, str => [str]
  | v :: rest, prev, str =>
    if v = prev + 1 then buildRunsN rest v (str ++ [v])
    else if v ≠ 0 then str :: buildRunsN rest v [v]
    else str :: buildRunsN rest v str

/-- Run-rebuilding loop over the sorted deduplicated tail, for rational
values (the sigma pair fields). -/
def buildRunsQ : List ℚ → ℚ → List ℚ → List (List ℚ)
  | [], _, str => [str]
  | v :: rest, prev, str =>
    if v = prev + 1 then buildRunsQ rest v (str ++ [v])
    else if v ≠ 0 then str :: buildRunsQ rest v [v]
    else str :: buildRunsQ rest v str

/-- Models `[...new Set(c)].sort((a, b) => a - b)`: the sorted list of the
distinct elements of `c` (deduplicate, then sort ascending). -/
def sortDedupN (c : List ℕ) : List ℕ := List.insertionSort (fun a b => a ≤ b) c.dedup

/-- Models `[...new Set(c)].sort((a, b) => a - b)` on rationals. -/
def sortDedupQ (c : List ℚ) : List ℚ := List.insertionSort (fun a b => a ≤ b) c.dedup

/-- Collapse of one nested rule field (an array of runs).  An empty array
fails the `p[j] && p[j].length` test and passes through.  The inner `[]`
case is unreachable for reports produced by `patterns` (a non-empty rule
field has a non-empty flattening; in JS that branch would be a
`TypeError` on `z[0].toString()`). -/
def collapseRuns : List (List ℕ) → List (List ℕ)
  | [] => []
  | r :: rs =>
    match sortDedupN ((r :: rs).flatten) with
    | [] => []
    | v :: rest => buildRunsN rest v [v]

/-- Collapse of the flat `alpha` field (an array of bare indices). -/
def collapseFlatN : List ℕ → List (List ℕ)
  | [] => []
  | a :: l =>
    match sortDedupN (a :: l) with
    | [] => []
    | v :: rest => buildRunsN rest v [v]

/-- Collapse of a flat array of rationals (the sigma pair fields, which
always have length 2 and therefore always get processed). -/
def collapseNums : List ℚ → List (List ℚ)
  | [] => []
  | a :: l =>
    match sortDedupQ (a :: l) with
    | [] => []
    | v :: rest => buildRunsQ rest v [v]

/-- Collapse of a nested array of rationals (a sigma field of an
already-collapsed report). -/
def collapseRunsQ : List (List ℚ) → List (List ℚ)
  | [] => []
  | r :: rs =>
    match sortDedupQ ((r :: rs).flatten) with
    | [] => []
    | v :: rest => buildRunsQ rest v [v]

/-- The `collapse` function applied to an uncollapsed `patterns` report:
the five sigma pairs and the eight rule fields are arrays and are
processed (empty ones pass through as empty); numbers and plain objects
(`jarqueBera`, `outliers`, `poisson` and the scalar statistics) have no
usable `.length` and pass through unchanged. -/
def collapse (p : Report) : CollapsedReport :=
  { sigma1 := collapseNums p.sigma1
    sigma2 := collapseNums p.sigma2
    sigma3 := collapseNums p.sigma3
    sigma4 := collapseNums p.sigma4
    sigma5 := collapseNums p.sigma5
    jarqueBera := p.jarqueBera
    kurtosis := p.kurtosis
    maxV := p.maxV
    mean := p.mean
    median := p.median
    mad := p.mad
    minV := p.minV
    mode := p.mode
    outliers := p.outliers
    sampleCorrelation := p.sampleCorrelation
    skewness := p.skewness
    spread := p.spread
    standardDeviation := p.standardDeviation
    pValue := p.pValue
    zScoreMin := p.zScoreMin
    poisson := p.poisson
    alpha := collapseFlatN p.alpha
    bravo := collapseRuns p.bravo
    charlie := collapseRuns p.charlie
    delta := collapseRuns p.delta
    echo := collapseRuns p.echo
    foxtrot := collapseRuns p.foxtrot
    golf := collapseRuns p.golf
    hotel := collapseRuns p.hotel }

/-- The `collapse` function applied to an already-collapsed report (every
collapsible field is an array of runs). -/
def collapseC (p : CollapsedReport) : CollapsedReport :=
  { sigma1 := collapseRunsQ p.sigma1
    sigma2 := collapseRunsQ p.sigma2
    sigma3 := collapseRunsQ p.sigma3
    sigma4 := collapseRunsQ p.sigma4
    sigma5 := collapseRunsQ p.sigma5
    jarqueBera := p.jarqueBera
    kurtosis := p.kurtosis
    maxV := p.maxV
    mean := p.mean
    median := p.median
    mad := p.mad
    minV := p.minV
    mode := p.mode
    outliers := p.outliers
    sampleCorrelation := p.sampleCorrelation
    skewness := p.skewness
    spread := p.spread
    standardDeviation := p.standardDeviation
    pValue := p.pValue
    zScoreMin := p.zScoreMin
    poisson := p.poisson
    alpha := collapseRuns p.alpha
    bravo := collapseRuns p.bravo
    charlie := collapseRuns p.charlie
    delta := collapseRuns p.delta
    echo := collapseRuns p.echo
    foxtrot := collapseRuns p.foxtrot
    golf := collapseRuns p.golf
    hotel := collapseRuns p.hotel }

/-- `patterns` with a truthy `_collapse` flag returns `collapse(p)`. -/
def patternsCollapsed (data : List ℚ) (st : ExtStats) : CollapsedReport :=
  collapse (patterns data st)

/-!
## Concrete samples and collaborator values

Concrete `ExtStats` records are justified next to their use: whenever a
claim's concrete instance depends on a statistic (the mean for the delta
rule, the mean and standard deviation for the sigma ranges), the
accompanying theorem proves the corresponding `ssMean` / `ssVariance`
value of the sample, pinning the collaborator's output exactly.  The
remaining fields (skewness, kurtosis, mode, …) are collaborator outputs
that no rule reads and no claim constrains; `mkStats` fills them with a
fixed default.
-/

/-- Builds an `ExtStats` record from the statistics the rule engine
actually reads; the fields no rule reads get fixed defaults. -/
def mkStats (mean std median minV maxV : ℚ) : ExtStats :=
  { mean := mean, std := std, median := median, minV := minV, maxV := maxV,
    skewness := 0, kurtosis := 0, mad := 0, mode := 0, sampleCorrelation := 0,
    jarqueBera := (0, 0), outliers := ([], [], []), zScoreMax := 0,
    zScoreMin := 0, poissonFn := fun _ => 0 }

/-- The fixed 60-point reference series of the spec (§8). -/
def data60 : List ℚ :=
  [42, 41, 45, 49, 44, 39, 47, 42, 69, 60, 59, 40, 39, 40, 18, 41, 48, 50,
   48, 49, 44, 49, 66, 62, 66, 43, 47, 43, 42, 45, 59, 61, 68, 45, 41, 42,
   42, 37, 56, 61, 56, 44, 39, 63, 64, 62, 87, 38, 42, 36, 34, 75, 72, 60,
   37, 44, 43, 44, 48, 45]

/-- Sample with mean 0 whose only delta-qualifying 7-point window starts
at index 3. -/
def d11 : List ℚ := [0, 0, 0, 1, 1, 1, 1, 1, 1, 1, -7]

/-- Collaborator statistics for `d11` (mean 0; the delta rule reads only
the mean). -/
def stD11 : ExtStats := mkStats 0 1 1 (-7) 1

/-- Seven-point sample whose first two values are equal and whose
remaining steps strictly decrease. -/
def data7 : List ℚ := [5, 5, 4, 3, 2, 1, 0]

/-- Collaborator statistics for `data7` (the echo rule reads no
statistic at all; its windows depend only on the raw data). -/
def stData7 : ExtStats := mkStats (20 / 7) 1 3 0 5

/-- Sample with mean −1 and population variance 1 (standard deviation 1),
so that the 1-sigma range is `[-2, 0]` — a gap followed by the value `0`,
the input on which the collapse loop's `if (z[i])` truthiness test goes
wrong. -/
def d4 : List ℚ := [-2, 0, -2, 0]

/-- Collaborator statistics for `d4`: mean −1, standard deviation 1. -/
def stD4 : ExtStats := mkStats (-1) 1 (-1) (-2) 0

/-- Sample with mean 2 and population variance 4 (standard deviation 2),
so that the 1-sigma range is `[0, 4]`. -/
def dC4 : List ℚ := [0, 4, 0, 4]

/-- Collaborator statistics for `dC4`: mean 2, standard deviation 2. -/
def stC4 : ExtStats := mkStats 2 2 2 0 4

/-- Sample with mean 3/2 and population variance 1/4 (standard deviation
1/2); none of `mean + k·std` for k = 1..5 is 0, so the collapse zero bug
cannot trigger on any sigma field. -/
def dW : List ℚ := [1, 2]

/-- Collaborator statistics for `dW`: mean 3/2, standard deviation 1/2. -/
def stW : ExtStats := mkStats (3 / 2) (1 / 2) (3 / 2) 1 2

/-! ## Theorems -/

/-- C9: for every valid input sample (and any collaborator statistics),
the alpha, bravo, charlie, foxtrot and golf fields of the report returned
by `patterns` are empty, in both the uncollapsed and the collapsed mode:
the rule loop ranges over the three-element `z.zones` boundary array, the
strict-equality comparisons of boundary objects against "X"/"A"/"C" are
always false, and the label-based counters can never reach the thresholds
2-of-3, 4-of-5, 8 and 15. -/
theorem C9_label_rule_fields_always_empty (data : List ℚ) (st : ExtStats) :
    (patterns data st).alpha = [] ∧ (patterns data st).bravo = [] ∧
    (patterns data st).charlie = [] ∧ (patterns data st).foxtrot = [] ∧
    (patterns data st).golf = [] ∧
    (patternsCollapsed data st).alpha = [] ∧ (patternsCollapsed data st).bravo = [] ∧
    (patternsCollapsed data st).charlie = [] ∧ (patternsCollapsed data st).foxtrot = [] ∧
    (patternsCollapsed data st).golf = [] :=
  ⟨rfl, rfl, rfl, rfl, rfl, rfl, rfl, rfl, rfl, rfl⟩

/-- C2: on the fixed 60-point reference series, `patterns` returns an
empty `alpha` field (and an empty `bravo` field) in both modes, for any
collaborator statistics — contradicting the specified `[46]` (resp.
`[[46]]`): the value 87 at index 46 is never examined because the rule
loop iterates the three boundary records rather than the labels. -/
theorem C2_fixed_series_alpha_empty (st : ExtStats) :
    (patterns data60 st).alpha = [] ∧ (patternsCollapsed data60 st).alpha = [] ∧
    (patterns data60 st).bravo = [] ∧ (patternsCollapsed data60 st).bravo = [] :=
  ⟨rfl, rfl, rfl, rfl⟩

/-- C1: evaluation of the code at a failing input for the claim that
every fitting window start index is evaluated.  In the sample `d11`
(mean 0, proved via `ssMean`), the delta window starting at index 3 fits
(`3 + 7 ≤ 11`) and qualifies (all seven values strictly above the mean),
yet the `delta` field of the report is empty: the rule loop stops after
start index 2 because it iterates the three-element `z.zones` array. -/
theorem C1_qualifying_delta_window_unreported :
    ssMean d11 = 0 ∧ stD11.mean = 0 ∧ 3 + 7 ≤ d11.length ∧
    (d11.drop 3).take 7 = [1, 1, 1, 1, 1, 1, 1] ∧
    (∀ x ∈ (d11.drop 3).take 7, ssMean d11 < x) ∧
    (patterns d11 stD11).delta = [] := by
  have hm : ssMean d11 = 0 := by norm_num [ssMean, d11]
  refine ⟨hm, rfl, by norm_num [d11], by norm_num [d11], ?_, rfl⟩
  intro x hx
  have hx1 : x = 1 := by
    have : (d11.drop 3).take 7 = [1, 1, 1, 1, 1, 1, 1] := by norm_num [d11]
    rw [this] at hx
    simpa using hx
  rw [hx1, hm]
  norm_num

/-- C10: if every value of the (non-empty) sample equals `c`, the mean is
`c` and the population variance is 0 — so the collaborator standard
deviation is 0 — and then every zone interval degenerates to the empty
half-open interval `[c, c)`, the constructor builds exactly those three
degenerate boundary records, and every point is labelled "X".  The
embedded classifier is total: no error and no non-value arises. -/
theorem C10_zero_std_labels_all_X (data : List ℚ) (c median : ℚ)
    (hne : data ≠ []) (hc : ∀ x ∈ data, x = c) :
    ssMean data = c ∧ ssVariance data = 0 ∧
    (Zone.make data c 0 median).zones =
      [{ name := "C", max := c, min := c }, { name := "B", max := c, min := c },
       { name := "A", max := c, min := c }] ∧
    (Zone.make data c 0 median).dataZones = data.map (fun _ => "X") := by
  have h0 : data.length ≠ 0 := by simpa [List.length_eq_zero] using hne
  have hn : (data.length : ℚ) ≠ 0 := Nat.cast_ne_zero.mpr h0
  have hmean : ssMean data = c := by
    unfold ssMean
    rw [List.sum_eq_card_nsmul data c hc, nsmul_eq_mul]
    exact mul_div_cancel_left₀ c hn
  refine ⟨hmean, ?_, ?_, ?_⟩
  · unfold ssVariance
    rw [List.sum_eq_zero, zero_div]
    intro x hx
    obtain ⟨y, hy, rfl⟩ := List.mem_map.mp hx
    rw [hc y hy, hmean]
    ring
  · simp [Zone.make, mkZones, validate]
  · simp only [Zone.make, validate]
    refine List.map_congr_left fun a ha => ?_
    rw [hc a ha]
    norm_num [Zone.which, mkZones]

/-- C10 witness: the constant sample `[7, 7, 7]`. -/
theorem C10_witness :
    ssMean [(7 : ℚ), 7, 7] = 7 ∧ ssVariance [(7 : ℚ), 7, 7] = 0 ∧
    (Zone.make [(7 : ℚ), 7, 7] 7 0 7).zones =
      [{ name := "C", max := 7, min := 7 }, { name := "B", max := 7, min := 7 },
       { name := "A", max := 7, min := 7 }] ∧
    (Zone.make [(7 : ℚ), 7, 7] 7 0 7).dataZones = [(7 : ℚ), 7, 7].map (fun _ => "X") :=
  C10_zero_std_labels_all_X [(7 : ℚ), 7, 7] 7 7 (by simp) (by norm_num)

/-- C5: the code's classification agrees everywhere with the spec-worded
first-match rule over half-open intervals in the order C, B, A (first
conjunct); a value exactly at `mean + 3·σ` is labelled "X" (second
conjunct); and, provided the standard deviation is positive, a value
exactly at `mean − 3·σ` is labelled "A" (third conjunct — the positivity
proviso is forced by the degenerate counterexample, where that value is
labelled "X"). -/
theorem C5_first_zone_halfopen_classification (mean std v : ℚ) :
    Zone.which (mkZones mean std) v = whichSpec mean std v ∧
    Zone.which (mkZones mean std) (mean + 3 * std) = "X" ∧
    (0 < std → Zone.which (mkZones mean std) (mean - 3 * std) = "A") := by
  refine ⟨?_, ?_, ?_⟩
  · simp only [Zone.which, mkZones, whichSpec]
    ring_nf
  · simp only [Zone.which, mkZones]
    split_ifs with h1 h2 h3
    · exact absurd h1.2 (by linarith)
    · exact absurd h2.2 (by linarith [h2.1])
    · exact absurd h3.2 (by linarith)
    · rfl
  · intro hstd
    simp only [Zone.which, mkZones]
    split_ifs with h1 h2 h3
    · exact absurd h1.1 (by linarith)
    · exact absurd h2.1 (by linarith)
    · rfl
    · exact absurd (show mean - std * 3 ≤ mean - 3 * std ∧ mean - 3 * std < mean + std * 3
        from ⟨by linarith, by linarith⟩) h3

/-- C5 counterexample to the unamended claim: the constant sample
`[5, 5, 5]` is valid and has mean 5 and variance 0 (so standard deviation
0), and the value `5 - 3·0` — exactly `mean − 3σ` — is labelled "X", not
"A". -/
theorem C5_counterexample_degenerate_lower_boundary :
    ssMean [(5 : ℚ), 5, 5] = 5 ∧ ssVariance [(5 : ℚ), 5, 5] = 0 ∧
    Zone.which (mkZones 5 0) (5 - 3 * 0) = "X" := by
  refine ⟨by norm_num [ssMean], by norm_num [ssVariance, ssMean], ?_⟩
  norm_num [Zone.which, mkZones]

/-- C5 witness at mean 0, standard deviation 1, value 7. -/
theorem C5_witness :
    Zone.which (mkZones 0 1) 7 = whichSpec 0 1 7 ∧
    Zone.which (mkZones 0 1) (0 + 3 * 1) = "X" ∧
    Zone.which (mkZones 0 1) (0 - 3 * 1) = "A" :=
  ⟨(C5_first_zone_halfopen_classification 0 1 7).1,
   (C5_first_zone_halfopen_classification 0 1 7).2.1,
   (C5_first_zone_halfopen_classification 0 1 7).2.2 (by norm_num)⟩

/-- Helper: the classifier only ever returns one of the four labels. -/
theorem which_mkZones_mem (mean std v : ℚ) :
    Zone.which (mkZones mean std) v = "C" ∨ Zone.which (mkZones mean std) v = "B" ∨
    Zone.which (mkZones mean std) v = "A" ∨ Zone.which (mkZones mean std) v = "X" := by
  simp only [Zone.which, mkZones]
  split_ifs <;> simp

/-- C6: for every sample, classification produces exactly n labels, each
one of C, B, A, X; and — provided the standard deviation is positive,
a proviso forced by the degenerate counterexample — the computed zone
boundaries are strictly nested: A strictly contains B, which strictly
contains C. -/
theorem C6_label_count_and_nesting (data : List ℚ) (mean std median : ℚ) :
    (Zone.make data mean std median).dataZones.length = data.length ∧
    (∀ l ∈ (Zone.make data mean std median).dataZones,
        l = "C" ∨ l = "B" ∨ l = "A" ∨ l = "X") ∧
    (0 < std → zonesStrictlyNested (Zone.make data mean std median).zones) := by
  refine ⟨by simp [Zone.make, validate], ?_, ?_⟩
  · intro l hl
    simp only [Zone.make, validate, List.mem_map] at hl
    obtain ⟨v, _, rfl⟩ := hl
    exact which_mkZones_mem mean std v
  · intro hstd
    simp only [Zone.make, mkZones, zonesStrictlyNested]
    refine ⟨by linarith, by linarith, by linarith, by linarith⟩

/-- C6 counterexample to the unamended claim: for the valid constant
sample `[5, 5, 5]` (mean 5, variance 0, hence standard deviation 0) the
three zone intervals coincide, so the strict nesting C ⊂ B ⊂ A fails. -/
theorem C6_counterexample_degenerate_nesting :
    ssMean [(5 : ℚ), 5, 5] = 5 ∧ ssVariance [(5 : ℚ), 5, 5] = 0 ∧
    ¬ zonesStrictlyNested (Zone.make [(5 : ℚ), 5, 5] 5 0 5).zones := by
  refine ⟨by norm_num [ssMean], by norm_num [ssVariance, ssMean], ?_⟩
  simp only [Zone.make, mkZones, zonesStrictlyNested]
  norm_num

/-- C6 witness: the sample `[1, 2]` with mean 3/2 and standard deviation
1/2. -/
theorem C6_witness :
    (Zone.make [(1 : ℚ), 2] (3 / 2) (1 / 2) (3 / 2)).dataZones.length =
      [(1 : ℚ), 2].length ∧
    (∀ l ∈ (Zone.make [(1 : ℚ), 2] (3 / 2) (1 / 2) (3 / 2)).dataZones,
        l = "C" ∨ l = "B" ∨ l = "A" ∨ l = "X") ∧
    zonesStrictlyNested (Zone.make [(1 : ℚ), 2] (3 / 2) (1 / 2) (3 / 2)).zones :=
  ⟨(C6_label_count_and_nesting [(1 : ℚ), 2] (3 / 2) (1 / 2) (3 / 2)).1,
   (C6_label_count_and_nesting [(1 : ℚ), 2] (3 / 2) (1 / 2) (3 / 2)).2.1,
   (C6_label_count_and_nesting [(1 : ℚ), 2] (3 / 2) (1 / 2) (3 / 2)).2.2 (by norm_num)⟩

/-!
## Collapse lemmas

The run-rebuilding loop, on a sorted duplicate-free list of indices whose
tail contains no 0 (for sorted natural numbers a 0 can only be the head),
partitions the list exactly: its flattening returns the list.  This gives
idempotence and index-set preservation on the rule fields.  On the sigma
fields (rationals, possibly negative) the zero-after-a-gap case genuinely
misbehaves; the pair lemmas below compute every case.
-/

theorem buildRunsN_ne_nil : ∀ (rest : List ℕ) (prev : ℕ) (str : List ℕ),
    buildRunsN rest prev str ≠ [] := by
  intro rest
  induction rest with
  | nil => intro prev str; simp [buildRunsN]
  | cons v vs ih =>
    intro prev str
    simp only [buildRunsN]
    split_ifs
    · exact ih v (str ++ [v])
    · simp
    · simp

theorem buildRunsN_flatten : ∀ (rest : List ℕ) (prev : ℕ) (str : List ℕ),
    (0 : ℕ) ∉ rest → (buildRunsN rest prev str).flatten = str ++ rest := by
  intro rest
  induction rest with
  | nil => intro prev str _; simp [buildRunsN]
  | cons v vs ih =>
    intro prev str h0
    have hv : v ≠ 0 := fun h => h0 (by simp [h])
    have h0' : (0 : ℕ) ∉ vs := fun h => h0 (List.mem_cons_of_mem _ h)
    simp only [buildRunsN]
    by_cases h1 : v = prev + 1
    · rw [if_pos h1, ih v (str ++ [v]) h0']
      simp
    · rw [if_neg h1, if_pos hv, List.flatten_cons, ih v [v] h0']
      simp

theorem sortDedupN_sorted (c : List ℕ) : (sortDedupN c).Sorted (fun a b => a ≤ b) :=
  List.sorted_insertionSort _ _

theorem sortDedupN_nodup (c : List ℕ) : (sortDedupN c).Nodup :=
  (List.perm_insertionSort _ _).symm.nodup (List.nodup_dedup c)

theorem sortDedupN_mem (c : List ℕ) (x : ℕ) : x ∈ sortDedupN c ↔ x ∈ c :=
  (List.perm_insertionSort _ _).mem_iff.trans List.mem_dedup

theorem sortDedupN_eq_self (z : List ℕ) (hs : z.Sorted (fun a b => a ≤ b))
    (hn : z.Nodup) : sortDedupN z = z := by
  unfold sortDedupN
  rw [List.dedup_eq_self.mpr hn]
  exact hs.insertionSort_eq

theorem zero_not_mem_tail_of_sorted_nodup (v : ℕ) (rest : List ℕ)
    (hs : (v :: rest).Sorted (fun a b => a ≤ b)) (hn : (v :: rest).Nodup) :
    (0 : ℕ) ∉ rest := by
  intro h0
  have hv0 : v ≤ 0 := (List.sorted_cons.mp hs).1 0 h0
  have : v = 0 := Nat.le_zero.mp hv0
  exact (List.nodup_cons.mp hn).1 (this ▸ h0)

theorem collapseRuns_flatten (runs : List (List ℕ)) :
    (collapseRuns runs).flatten = sortDedupN runs.flatten := by
  cases runs with
  | nil => rfl
  | cons r rs =>
    show (match sortDedupN ((r :: rs).flatten) with
      | [] => []
      | v :: rest => buildRunsN rest v [v]).flatten = sortDedupN ((r :: rs).flatten)
    cases hz : sortDedupN ((r :: rs).flatten) with
    | nil => rfl
    | cons v rest =>
      have hs := hz ▸ sortDedupN_sorted ((r :: rs).flatten)
      have hn := hz ▸ sortDedupN_nodup ((r :: rs).flatten)
      simpa using buildRunsN_flatten rest v [v] (zero_not_mem_tail_of_sorted_nodup v rest hs hn)

theorem collapseFlatN_flatten (c : List ℕ) :
    (collapseFlatN c).flatten = sortDedupN c := by
  cases c with
  | nil => rfl
  | cons a l =>
    show (match sortDedupN (a :: l) with
      | [] => []
      | v :: rest => buildRunsN rest v [v]).flatten = sortDedupN (a :: l)
    cases hz : sortDedupN (a :: l) with
    | nil => rfl
    | cons v rest =>
      have hs := hz ▸ sortDedupN_sorted (a :: l)
      have hn := hz ▸ sortDedupN_nodup (a :: l)
      simpa using buildRunsN_flatten rest v [v] (zero_not_mem_tail_of_sorted_nodup v rest hs hn)

theorem collapseRuns_buildRuns (v : ℕ) (rest : List ℕ)
    (hs : (v :: rest).Sorted (fun a b => a ≤ b)) (hn : (v :: rest).Nodup) :
    collapseRuns (buildRunsN rest v [v]) = buildRunsN rest v [v] := by
  have h0 := zero_not_mem_tail_of_sorted_nodup v rest hs hn
  have hfl : (buildRunsN rest v [v]).flatten = v :: rest := by
    simpa using buildRunsN_flatten rest v [v] h0
  cases hS : buildRunsN rest v [v] with
  | nil => exact absurd hS (buildRunsN_ne_nil rest v [v])
  | cons s ss =>
    show (match sortDedupN ((s :: ss).flatten) with
      | [] => []
      | w :: rest2 => buildRunsN rest2 w [w]) = s :: ss
    rw [← hS, hfl, sortDedupN_eq_self (v :: rest) hs hn]

theorem collapseRuns_idem (runs : List (List ℕ)) :
    collapseRuns (collapseRuns runs) = collapseRuns runs := by
  cases runs with
  | nil => rfl
  | cons r rs =>
    have hshape : collapseRuns (r :: rs) = match sortDedupN ((r :: rs).flatten) with
      | [] => []
      | v :: rest => buildRunsN rest v [v] := rfl
    cases hz : sortDedupN ((r :: rs).flatten) with
    | nil => rw [hshape, hz]; rfl
    | cons v rest =>
      rw [hshape, hz]
      exact collapseRuns_buildRuns v rest (hz ▸ sortDedupN_sorted _) (hz ▸ sortDedupN_nodup _)

theorem collapseFlatN_idem (c : List ℕ) :
    collapseRuns (collapseFlatN c) = collapseFlatN c := by
  cases c with
  | nil => rfl
  | cons a l =>
    have hshape : collapseFlatN (a :: l) = match sortDedupN (a :: l) with
      | [] => []
      | v :: rest => buildRunsN rest v [v] := rfl
    cases hz : sortDedupN (a :: l) with
    | nil => rw [hshape, hz]; rfl
    | cons v rest =>
      rw [hshape, hz]
      exact collapseRuns_buildRuns v rest (hz ▸ sortDedupN_sorted _) (hz ▸ sortDedupN_nodup _)

theorem sortDedupQ_single (a : ℚ) : sortDedupQ [a] = [a] := by
  unfold sortDedupQ
  rw [List.dedup_cons_of_not_mem (List.not_mem_nil a), List.dedup_nil]
  simp [List.insertionSort, List.orderedInsert]

theorem sortDedupQ_pair (a b : ℚ) (hlt : a < b) : sortDedupQ [a, b] = [a, b] := by
  unfold sortDedupQ
  rw [List.dedup_cons_of_not_mem (by simp [hlt.ne]),
    List.dedup_cons_of_not_mem (List.not_mem_nil b), List.dedup_nil]
  simp [List.insertionSort, List.orderedInsert, hlt.le]

theorem collapseNums_pair_same (a : ℚ) : collapseNums [a, a] = [[a]] := by
  have h : sortDedupQ [a, a] = [a] := by
    unfold sortDedupQ
    rw [List.dedup_cons_of_mem (by simp : a ∈ [a]),
      List.dedup_cons_of_not_mem (List.not_mem_nil a), List.dedup_nil]
    simp [List.insertionSort, List.orderedInsert]
  show (match sortDedupQ [a, a] with | [] => [] | v :: rest => buildRunsQ rest v [v]) = [[a]]
  rw [h]
  rfl

theorem collapseNums_pair_consec (a b : ℚ) (hlt : a < b) (hb1 : b = a + 1) :
    collapseNums [a, b] = [[a, b]] := by
  show (match sortDedupQ [a, b] with | [] => [] | v :: rest => buildRunsQ rest v [v]) = [[a, b]]
  rw [sortDedupQ_pair a b hlt]
  show buildRunsQ [b] a [a] = [[a, b]]
  unfold buildRunsQ
  rw [if_pos hb1]
  rfl

theorem collapseNums_pair_gap (a b : ℚ) (hlt : a < b) (hb1 : b ≠ a + 1) (hb0 : b ≠ 0) :
    collapseNums [a, b] = [[a], [b]] := by
  show (match sortDedupQ [a, b] with | [] => [] | v :: rest => buildRunsQ rest v [v]) = [[a], [b]]
  rw [sortDedupQ_pair a b hlt]
  show buildRunsQ [b] a [a] = [[a], [b]]
  unfold buildRunsQ
  rw [if_neg hb1, if_pos hb0]
  rfl

theorem collapseRunsQ_single (a : ℚ) : collapseRunsQ [[a]] = [[a]] := by
  show (match sortDedupQ ([[a]] : List (List ℚ)).flatten with
    | [] => [] | v :: rest => buildRunsQ rest v [v]) = [[a]]
  rw [show ([[a]] : List (List ℚ)).flatten = [a] by simp, sortDedupQ_single a]
  rfl

theorem collapseRunsQ_pairrun (a b : ℚ) (hlt : a < b) (hb1 : b = a + 1) :
    collapseRunsQ [[a, b]] = [[a, b]] := by
  show (match sortDedupQ ([[a, b]] : List (List ℚ)).flatten with
    | [] => [] | v :: rest => buildRunsQ rest v [v]) = [[a, b]]
  rw [show ([[a, b]] : List (List ℚ)).flatten = [a, b] by simp, sortDedupQ_pair a b hlt]
  show buildRunsQ [b] a [a] = [[a, b]]
  unfold buildRunsQ
  rw [if_pos hb1]
  rfl

theorem collapseRunsQ_two (a b : ℚ) (hlt : a < b) (hb1 : b ≠ a + 1) (hb0 : b ≠ 0) :
    collapseRunsQ [[a], [b]] = [[a], [b]] := by
  show (match sortDedupQ ([[a], [b]] : List (List ℚ)).flatten with
    | [] => [] | v :: rest => buildRunsQ rest v [v]) = [[a], [b]]
  rw [show ([[a], [b]] : List (List ℚ)).flatten = [a, b] by simp, sortDedupQ_pair a b hlt]
  show buildRunsQ [b] a [a] = [[a], [b]]
  unfold buildRunsQ
  rw [if_neg hb1, if_pos hb0]
  rfl

theorem collapseNums_pair_idem (a b : ℚ) (hab : a ≤ b) (h0 : b = 0 → a = 0 ∨ a = -1) :
    collapseRunsQ (collapseNums [a, b]) = collapseNums [a, b] := by
  rcases eq_or_lt_of_le hab with heq | hlt
  · subst heq
    rw [collapseNums_pair_same a, collapseRunsQ_single a]
  · by_cases hb1 : b = a + 1
    · rw [collapseNums_pair_consec a b hlt hb1, collapseRunsQ_pairrun a b hlt hb1]
    · have hb0 : b ≠ 0 := by
        intro h
        rcases h0 h with h1 | h1
        · rw [h, h1] at hlt
          exact absurd hlt (lt_irrefl 0)
        · exact hb1 (by rw [h, h1]; norm_num)
      rw [collapseNums_pair_gap a b hlt hb1 hb0, collapseRunsQ_two a b hlt hb1 hb0]

/-- C3 counterexample: on the sample `[-2, 0, -2, 0]` (mean −1, variance
1, hence standard deviation 1, all proved), the 1-sigma range is
`[-2, 0]`; the collapse loop's `if (z[i])` truthiness test skips the run
reset on the value `0`, so collapsing once yields `[[-2], [-2]]` on that
field and collapsing again yields `[[-2]]`: collapse applied to this
`patterns` report is not idempotent. -/
theorem C3_counterexample_not_idempotent :
    ssMean d4 = -1 ∧ ssVariance d4 = 1 ∧ stD4.mean = -1 ∧ stD4.std = 1 ∧
    collapseC (collapse (patterns d4 stD4)) ≠ collapse (patterns d4 stD4) := by
  refine ⟨by norm_num [ssMean, d4], by norm_num [ssVariance, ssMean, d4], rfl, rfl, ?_⟩
  intro h
  have h1 := congrArg CollapsedReport.sigma1 h
  rw [show (collapseC (collapse (patterns d4 stD4))).sigma1 = [[-2]] by
        norm_num [patterns, collapse, collapseC, collapseNums, collapseRunsQ, sortDedupQ,
          buildRunsQ, stD4, mkStats],
      show (collapse (patterns d4 stD4)).sigma1 = [[-2], [-2]] by
        norm_num [patterns, collapse, collapseNums, sortDedupQ, buildRunsQ, stD4, mkStats]]
    at h1
  simp at h1

/-- C3 amended: `collapse` is idempotent on every report produced by
`patterns` provided no sigma boundary triggers the zero-after-a-gap case:
whenever `mean + k·std = 0` (k = 1..5), the lower boundary `mean − k·std`
is 0 or −1.  In particular the eight rule fields always satisfy
idempotence (their indices are naturals, so a 0 can only be the minimum);
only a sigma pair `[a, 0]` with `a < -1` breaks it. -/
theorem C3_collapse_idempotent_no_zero_gap (data : List ℚ) (st : ExtStats)
    (hstd : 0 ≤ st.std)
    (h1 : st.mean + st.std = 0 → st.mean - st.std = 0 ∨ st.mean - st.std = -1)
    (h2 : st.mean + st.std * 2 = 0 → st.mean - st.std * 2 = 0 ∨ st.mean - st.std * 2 = -1)
    (h3 : st.mean + st.std * 3 = 0 → st.mean - st.std * 3 = 0 ∨ st.mean - st.std * 3 = -1)
    (h4 : st.mean + st.std * 4 = 0 → st.mean - st.std * 4 = 0 ∨ st.mean - st.std * 4 = -1)
    (h5 : st.mean + st.std * 5 = 0 → st.mean - st.std * 5 = 0 ∨ st.mean - st.std * 5 = -1) :
    collapseC (collapse (patterns data st)) = collapse (patterns data st) := by
  have e1 : (patterns data st).sigma1 = [st.mean - st.std, st.mean + st.std] := rfl
  have e2 : (patterns data st).sigma2 = [st.mean - st.std * 2, st.mean + st.std * 2] := rfl
  have e3 : (patterns data st).sigma3 = [st.mean - st.std * 3, st.mean + st.std * 3] := rfl
  have e4 : (patterns data st).sigma4 = [st.mean - st.std * 4, st.mean + st.std * 4] := rfl
  have e5 : (patterns data st).sigma5 = [st.mean - st.std * 5, st.mean + st.std * 5] := rfl
  have m2 : (0 : ℚ) ≤ st.std * 2 := mul_nonneg hstd (by norm_num)
  have m3 : (0 : ℚ) ≤ st.std * 3 := mul_nonneg hstd (by norm_num)
  have m4 : (0 : ℚ) ≤ st.std * 4 := mul_nonneg hstd (by norm_num)
  have m5 : (0 : ℚ) ≤ st.std * 5 := mul_nonneg hstd (by norm_num)
  simp only [collapseC, collapse, CollapsedReport.mk.injEq]
  refine ⟨?_, ?_, ?_, ?_, ?_, trivial, trivial, trivial, trivial, trivial, trivial, trivial,
    trivial, trivial, trivial, trivial, trivial, trivial, trivial, trivial, trivial,
    collapseFlatN_idem _, collapseRuns_idem _, collapseRuns_idem _, collapseRuns_idem _,
    collapseRuns_idem _, collapseRuns_idem _, collapseRuns_idem _, collapseRuns_idem _⟩
  · rw [e1]; exact collapseNums_pair_idem _ _ (by linarith) h1
  · rw [e2]; exact collapseNums_pair_idem _ _ (by linarith) h2
  · rw [e3]; exact collapseNums_pair_idem _ _ (by linarith) h3
  · rw [e4]; exact collapseNums_pair_idem _ _ (by linarith) h4
  · rw [e5]; exact collapseNums_pair_idem _ _ (by linarith) h5

/-- C3 witness: the sample `[1, 2]` with mean 3/2 and standard deviation
1/2 satisfies the no-zero-boundary side conditions. -/
theorem C3_witness :
    collapseC (collapse (patterns dW stW)) = collapse (patterns dW stW) :=
  C3_collapse_idempotent_no_zero_gap dW stW (by norm_num [stW, mkStats])
    (by norm_num [stW, mkStats]) (by norm_num [stW, mkStats]) (by norm_num [stW, mkStats])
    (by norm_num [stW, mkStats]) (by norm_num [stW, mkStats])

/-- C4 counterexample: `collapse` does not leave the sigma pair fields
unchanged.  On the sample `[0, 4, 0, 4]` (mean 2, variance 4, hence
standard deviation 2, all proved) the 1-sigma field is the pair `[0, 4]`,
and collapsing reshapes it into the two runs `[[0], [4]]` — not the
pass-through `[[0, 4]]`-shaped value the claim's "unchanged" would
require. -/
theorem C4_counterexample_sigma_reshaped :
    ssMean dC4 = 2 ∧ ssVariance dC4 = 4 ∧ stC4.mean = 2 ∧ stC4.std = 2 ∧
    (patterns dC4 stC4).sigma1 = [0, 4] ∧
    (collapse (patterns dC4 stC4)).sigma1 = [[0], [4]] ∧
    (collapse (patterns dC4 stC4)).sigma1 ≠ [(patterns dC4 stC4).sigma1] := by
  have hp : (patterns dC4 stC4).sigma1 = [0, 4] := by
    norm_num [patterns, stC4, mkStats]
  have hc : (collapse (patterns dC4 stC4)).sigma1 = [[0], [4]] := by
    show collapseNums (patterns dC4 stC4).sigma1 = [[0], [4]]
    rw [hp]
    exact collapseNums_pair_gap 0 4 (by norm_num) (by norm_num) (by norm_num)
  refine ⟨by norm_num [ssMean, dC4], by norm_num [ssVariance, ssMean, dC4], rfl, rfl, hp, hc, ?_⟩
  rw [hc, hp]
  simp

/-- C4 amended: `collapse` leaves every scalar and object field of a
`patterns` report unchanged (mean, standardDeviation, median, mode, min,
max, skewness, kurtosis, spread, jarqueBera, outliers, poisson,
sampleCorrelation, medianAbsoluteDeviation, pValue, zScoreMin), and only
the eight rule fields **and the five sigma pair fields** are reshaped
into runs: when `0 < std`, `mean + std ≠ 0` and the pair is not
consecutive, the 1-sigma pair `[mean − std, mean + std]` becomes the two
runs `[[mean − std], [mean + std]]`. -/
theorem C4_scalar_fields_pass_through (data : List ℚ) (st : ExtStats) :
    ((collapse (patterns data st)).jarqueBera = (patterns data st).jarqueBera ∧
     (collapse (patterns data st)).kurtosis = (patterns data st).kurtosis ∧
     (collapse (patterns data st)).maxV = (patterns data st).maxV ∧
     (collapse (patterns data st)).mean = (patterns data st).mean ∧
     (collapse (patterns data st)).median = (patterns data st).median ∧
     (collapse (patterns data st)).mad = (patterns data st).mad ∧
     (collapse (patterns data st)).minV = (patterns data st).minV ∧
     (collapse (patterns data st)).mode = (patterns data st).mode ∧
     (collapse (patterns data st)).outliers = (patterns data st).outliers ∧
     (collapse (patterns data st)).sampleCorrelation = (patterns data st).sampleCorrelation ∧
     (collapse (patterns data st)).skewness = (patterns data st).skewness ∧
     (collapse (patterns data st)).spread = (patterns data st).spread ∧
     (collapse (patterns data st)).standardDeviation = (patterns data st).standardDeviation ∧
     (collapse (patterns data st)).pValue = (patterns data st).pValue ∧
     (collapse (patterns data st)).zScoreMin = (patterns data st).zScoreMin ∧
     (collapse (patterns data st)).poisson = (patterns data st).poisson) ∧
    (0 < st.std → st.mean + st.std ≠ 0 → st.mean + st.std ≠ st.mean - st.std + 1 →
      (collapse (patterns data st)).sigma1 = [[st.mean - st.std], [st.mean + st.std]]) := by
  refine ⟨⟨rfl, rfl, rfl, rfl, rfl, rfl, rfl, rfl, rfl, rfl, rfl, rfl, rfl, rfl, rfl, rfl⟩, ?_⟩
  intro hstd hb0 hb1
  show collapseNums (patterns data st).sigma1 = [[st.mean - st.std], [st.mean + st.std]]
  rw [show (patterns data st).sigma1 = [st.mean - st.std, st.mean + st.std] from rfl]
  exact collapseNums_pair_gap _ _ (by linarith) hb1 hb0

/-- C4 witness: the sample `[0, 4, 0, 4]` with mean 2, standard
deviation 2. -/
theorem C4_witness :
    ((collapse (patterns dC4 stC4)).jarqueBera = (patterns dC4 stC4).jarqueBera ∧
     (collapse (patterns dC4 stC4)).kurtosis = (patterns dC4 stC4).kurtosis ∧
     (collapse (patterns dC4 stC4)).maxV = (patterns dC4 stC4).maxV ∧
     (collapse (patterns dC4 stC4)).mean = (patterns dC4 stC4).mean ∧
     (collapse (patterns dC4 stC4)).median = (patterns dC4 stC4).median ∧
     (collapse (patterns dC4 stC4)).mad = (patterns dC4 stC4).mad ∧
     (collapse (patterns dC4 stC4)).minV = (patterns dC4 stC4).minV ∧
     (collapse (patterns dC4 stC4)).mode = (patterns dC4 stC4).mode ∧
     (collapse (patterns dC4 stC4)).outliers = (patterns dC4 stC4).outliers ∧
     (collapse (patterns dC4 stC4)).sampleCorrelation = (patterns dC4 stC4).sampleCorrelation ∧
     (collapse (patterns dC4 stC4)).skewness = (patterns dC4 stC4).skewness ∧
     (collapse (patterns dC4 stC4)).spread = (patterns dC4 stC4).spread ∧
     (collapse (patterns dC4 stC4)).standardDeviation = (patterns dC4 stC4).standardDeviation ∧
     (collapse (patterns dC4 stC4)).pValue = (patterns dC4 stC4).pValue ∧
     (collapse (patterns dC4 stC4)).zScoreMin = (patterns dC4 stC4).zScoreMin ∧
     (collapse (patterns dC4 stC4)).poisson = (patterns dC4 stC4).poisson) ∧
    (collapse (patterns dC4 stC4)).sigma1 = [[stC4.mean - stC4.std], [stC4.mean + stC4.std]] :=
  ⟨(C4_scalar_fields_pass_through dC4 stC4).1,
   (C4_scalar_fields_pass_through dC4 stC4).2 (by norm_num [stC4, mkStats])
     (by norm_num [stC4, mkStats]) (by norm_num [stC4, mkStats])⟩

/-- C8: for every sample and collaborator statistics, and for each of the
eight rule fields, the set of indices appearing in the collapsed output
equals the set of indices appearing in the uncollapsed field: collapsing
neither adds nor loses a flagged index. -/
theorem C8_collapse_preserves_index_sets (data : List ℚ) (st : ExtStats) :
    (∀ x, x ∈ ((collapse (patterns data st)).alpha).flatten ↔ x ∈ (patterns data st).alpha) ∧
    (∀ x, x ∈ ((collapse (patterns data st)).bravo).flatten ↔
        x ∈ ((patterns data st).bravo).flatten) ∧
    (∀ x, x ∈ ((collapse (patterns data st)).charlie).flatten ↔
        x ∈ ((patterns data st).charlie).flatten) ∧
    (∀ x, x ∈ ((collapse (patterns data st)).delta).flatten ↔
        x ∈ ((patterns data st).delta).flatten) ∧
    (∀ x, x ∈ ((collapse (patterns data st)).echo).flatten ↔
        x ∈ ((patterns data st).echo).flatten) ∧
    (∀ x, x ∈ ((collapse (patterns data st)).foxtrot).flatten ↔
        x ∈ ((patterns data st).foxtrot).flatten) ∧
    (∀ x, x ∈ ((collapse (patterns data st)).golf).flatten ↔
        x ∈ ((patterns data st).golf).flatten) ∧
    (∀ x, x ∈ ((collapse (patterns data st)).hotel).flatten ↔
        x ∈ ((patterns data st).hotel).flatten) := by
  refine ⟨fun x => ?_, fun x => ?_, fun x => ?_, fun x => ?_, fun x => ?_, fun x => ?_,
    fun x => ?_, fun x => ?_⟩
  · rw [show (collapse (patterns data st)).alpha = collapseFlatN (patterns data st).alpha
      from rfl, collapseFlatN_flatten]
    exact sortDedupN_mem _ x
  · rw [show (collapse (patterns data st)).bravo = collapseRuns (patterns data st).bravo
      from rfl, collapseRuns_flatten]
    exact sortDedupN_mem _ x
  · rw [show (collapse (patterns data st)).charlie = collapseRuns (patterns data st).charlie
      from rfl, collapseRuns_flatten]
    exact sortDedupN_mem _ x
  · rw [show (collapse (patterns data st)).delta = collapseRuns (patterns data st).delta
      from rfl, collapseRuns_flatten]
    exact sortDedupN_mem _ x
  · rw [show (collapse (patterns data st)).echo = collapseRuns (patterns data st).echo
      from rfl, collapseRuns_flatten]
    exact sortDedupN_mem _ x
  · rw [show (collapse (patterns data st)).foxtrot = collapseRuns (patterns data st).foxtrot
      from rfl, collapseRuns_flatten]
    exact sortDedupN_mem _ x
  · rw [show (collapse (patterns data st)).golf = collapseRuns (patterns data st).golf
      from rfl, collapseRuns_flatten]
    exact sortDedupN_mem _ x
  · rw [show (collapse (patterns data st)).hotel = collapseRuns (patterns data st).hotel
      from rfl, collapseRuns_flatten]
    exact sortDedupN_mem _ x

/-!
## Echo emission lemmas (C7)

`echoGo_cnt_le` bounds the counter by one increment per loop iteration;
the two run lemmas characterise the loop from its third iteration on
(`pts` already has two points and `dir` is fixed).
-/

theorem echoGo_cnt_le (data : List ℚ) : ∀ (js pts : List ℕ) (prev : ℚ) (dir : String)
    (cnt : ℕ), (echoGo data js pts prev dir cnt).2 ≤ cnt + js.length := by
  intro js
  induction js with
  | nil => intro pts prev dir cnt; simp [echoGo]
  | cons j js ih =>
    intro pts prev dir cnt
    simp only [echoGo]
    cases hj : data.get? j with
    | none =>
      simp only [hj]
      exact le_trans (ih pts prev dir cnt) (by simp)
    | some d =>
      simp only [hj]
      split_ifs <;>
        exact le_trans (ih _ _ _ _) (by simp <;> omega)

theorem echoGo_up_chain (data : List ℚ) : ∀ (js : List ℕ) (vs : List ℚ),
    js.map data.get? = vs.map some →
    ∀ (pts : List ℕ) (prev : ℚ) (cnt : ℕ), 2 ≤ pts.length →
      ((cnt + js.length ≤ (echoGo data js pts prev "up" cnt).2 ↔
        List.Chain' (fun a b => a < b) (prev :: vs)) ∧
       (cnt + js.length ≤ (echoGo data js pts prev "up" cnt).2 →
        (echoGo data js pts prev "up" cnt).1 = pts ++ js)) := by
  intro js
  induction js with
  | nil =>
    intro vs hmap pts prev cnt _
    have hvs : vs = [] := by cases vs <;> simp_all
    subst hvs
    simp [echoGo]
  | cons j js ih =>
    intro vs hmap pts prev cnt hpts
    cases vs with
    | nil => simp at hmap
    | cons v vs' =>
      simp only [List.map_cons, List.cons.injEq] at hmap
      obtain ⟨hj, hmap'⟩ := hmap
      have hlen0 : ¬ pts.length = 0 := by omega
      have hlen1 : ¬ pts.length = 1 := by omega
      simp only [echoGo, hj]
      rw [if_neg hlen0, if_neg hlen1]
      by_cases hv : prev < v
      · rw [if_pos (show True ∧ v > prev from ⟨trivial, hv⟩)]
        have IH := ih vs' hmap' (pts ++ [j]) v (cnt + 1) (by simp; omega)
        have hlen : cnt + (j :: js).length = (cnt + 1) + js.length := by simp; omega
        constructor
        · rw [hlen, IH.1, List.chain'_cons]
          simp [hv]
        · intro hc
          rw [hlen] at hc
          rw [IH.2 hc]
          simp
      · rw [if_neg (fun hcon => hv hcon.2),
          if_neg (fun hcon => absurd hcon.1 (by decide))]
        have hb := echoGo_cnt_le data js pts prev "up" cnt
        constructor
        · constructor
          · intro habs
            exfalso
            simp only [List.length_cons] at habs
            omega
          · intro hch
            exfalso
            rw [List.chain'_cons] at hch
            exact hv hch.1
        · intro habs
          exfalso
          simp only [List.length_cons] at habs
          omega

theorem echoGo_down_chain (data : List ℚ) : ∀ (js : List ℕ) (vs : List ℚ),
    js.map data.get? = vs.map some →
    ∀ (pts : List ℕ) (prev : ℚ) (cnt : ℕ), 2 ≤ pts.length →
      ((cnt + js.length ≤ (echoGo data js pts prev "down" cnt).2 ↔
        List.Chain' (fun a b => b < a) (prev :: vs)) ∧
       (cnt + js.length ≤ (echoGo data js pts prev "down" cnt).2 →
        (echoGo data js pts prev "down" cnt).1 = pts ++ js)) := by
  intro js
  induction js with
  | nil =>
    intro vs hmap pts prev cnt _
    have hvs : vs = [] := by cases vs <;> simp_all
    subst hvs
    simp [echoGo]
  | cons j js ih =>
    intro vs hmap pts prev cnt hpts
    cases vs with
    | nil => simp at hmap
    | cons v vs' =>
      simp only [List.map_cons, List.cons.injEq] at hmap
      obtain ⟨hj, hmap'⟩ := hmap
      have hlen0 : ¬ pts.length = 0 := by omega
      have hlen1 : ¬ pts.length = 1 := by omega
      simp only [echoGo, hj]
      rw [if_neg hlen0, if_neg hlen1,
        if_neg (show ¬ (("down" : String) = "up" ∧ v > prev) from
          fun hcon => absurd hcon.1 (by decide))]
      by_cases hv : v < prev
      · rw [if_pos (show True ∧ v < prev from ⟨trivial, hv⟩)]
        have IH := ih vs' hmap' (pts ++ [j]) v (cnt + 1) (by simp; omega)
        have hlen : cnt + (j :: js).length = (cnt + 1) + js.length := by simp; omega
        constructor
        · rw [hlen, IH.1, List.chain'_cons]
          simp [hv]
        · intro hc
          rw [hlen] at hc
          rw [IH.2 hc]
          simp
      · rw [if_neg (fun hcon => hv hcon.2)]
        have hb := echoGo_cnt_le data js pts prev "down" cnt
        constructor
        · constructor
          · intro habs
            exfalso
            simp only [List.length_cons] at habs
            omega
          · intro hch
            exfalso
            rw [List.chain'_cons] at hch
            exact hv hch.1
        · intro habs
          exfalso
          simp only [List.length_cons] at habs
          omega

set_option maxHeartbeats 1600000 in
/-- C7 amended: for every 7-point window that `patterns` evaluates (a
fully in-bounds window starting at `i`, whose seven values are given by
the `get?` hypotheses), the echo rule's counter reaches the emission
threshold (`_echo >= 7`, upon which `patterns` pushes the window's run)
exactly when the window is strictly increasing throughout, **or** the
first step is non-increasing (the direction is then fixed to "down" by
`_data[j] > prev ? "up" : "down"`, so an equal first pair also picks
"down") and the values from the second point on are strictly decreasing;
and an emitted full window's run is exactly its seven indices.  The
unamended claim fails on the equal-first-pair windows. -/
theorem C7_echo_window_emission (data : List ℚ) (i : ℕ) (d0 d1 d2 d3 d4v d5 d6 : ℚ)
    (h0 : data.get? i = some d0) (h1 : data.get? (i + 1) = some d1)
    (h2 : data.get? (i + 2) = some d2) (h3 : data.get? (i + 3) = some d3)
    (h4 : data.get? (i + 4) = some d4v) (h5 : data.get? (i + 5) = some d5)
    (h6 : data.get? (i + 6) = some d6) :
    (7 ≤ (echoScan data i).2 ↔
      ((d0 < d1 ∧ d1 < d2 ∧ d2 < d3 ∧ d3 < d4v ∧ d4v < d5 ∧ d5 < d6) ∨
       (d1 ≤ d0 ∧ d2 < d1 ∧ d3 < d2 ∧ d4v < d3 ∧ d5 < d4v ∧ d6 < d5))) ∧
    (7 ≤ (echoScan data i).2 →
      (echoScan data i).1 = [i, i + 1, i + 2, i + 3, i + 4, i + 5, i + 6]) := by
  have hr : List.range' i 7 = [i, i + 1, i + 2, i + 3, i + 4, i + 5, i + 6] := by
    simp [List.range', Nat.add_assoc]
  have s1 : echoScan data i
      = echoGo data [i + 1, i + 2, i + 3, i + 4, i + 5, i + 6] [i] d0 "" 1 := by
    unfold echoScan
    rw [hr, echoGo, h0]
    simp
  have s2 : echoGo data [i + 1, i + 2, i + 3, i + 4, i + 5, i + 6] [i] d0 "" 1
      = echoGo data [i + 2, i + 3, i + 4, i + 5, i + 6] [i, i + 1] d1
          (if d1 > d0 then "up" else "down") 2 := by
    rw [echoGo, h1]
    simp
  by_cases c1 : d0 < d1
  · have sdir : (if d1 > d0 then "up" else "down") = "up" := if_pos c1
    have H := echoGo_up_chain data [i + 2, i + 3, i + 4, i + 5, i + 6]
      [d2, d3, d4v, d5, d6]
      (by simp only [List.map_cons, List.map_nil, h2, h3, h4, h5, h6]) [i, i + 1] d1 2
      (by simp)
    simp only [List.length_cons, List.length_nil] at H
    norm_num at H
    rw [s1, s2, sdir]
    have c1' : ¬ d1 ≤ d0 := not_le.mpr c1
    constructor
    · rw [H.1]
      tauto
    · intro hc
      rw [H.2 hc]
  · have sdir : (if d1 > d0 then "up" else "down") = "down" := if_neg c1
    have H := echoGo_down_chain data [i + 2, i + 3, i + 4, i + 5, i + 6]
      [d2, d3, d4v, d5, d6]
      (by simp only [List.map_cons, List.map_nil, h2, h3, h4, h5, h6]) [i, i + 1] d1 2
      (by simp)
    simp only [List.length_cons, List.length_nil] at H
    norm_num at H
    rw [s1, s2, sdir]
    have c1' : d1 ≤ d0 := not_lt.mp c1
    constructor
    · rw [H.1]
      tauto
    · intro hc
      rw [H.2 hc]

/-- C7 counterexample to the unamended claim: on the sample
`[5, 5, 4, 3, 2, 1, 0]` (mean 20/7) the full window starting at 0 has an
equal first pair — it is neither strictly increasing nor strictly
decreasing — yet `patterns` emits it as an echo run. -/
theorem C7_counterexample_equal_first_pair :
    ssMean data7 = 20 / 7 ∧
    data7 = [5, 5, 4, 3, 2, 1, 0] ∧
    (patterns data7 stData7).echo = [[0, 1, 2, 3, 4, 5, 6]] ∧
    ¬ ((((5 : ℚ) < 5) ∧ ((5 : ℚ) < 4) ∧ ((4 : ℚ) < 3) ∧ ((3 : ℚ) < 2) ∧
          ((2 : ℚ) < 1) ∧ ((1 : ℚ) < 0)) ∨
       (((5 : ℚ) > 5) ∧ ((5 : ℚ) > 4) ∧ ((4 : ℚ) > 3) ∧ ((3 : ℚ) > 2) ∧
          ((2 : ℚ) > 1) ∧ ((1 : ℚ) > 0))) := by
  refine ⟨by norm_num [ssMean, data7], rfl, rfl, by norm_num⟩

/-- C7 witness: the strictly increasing window `[0, 1, 2, 3, 4, 5, 6]`. -/
theorem C7_witness :
    (7 ≤ (echoScan [(0 : ℚ), 1, 2, 3, 4, 5, 6] 0).2 ↔
      (((0 : ℚ) < 1 ∧ (1 : ℚ) < 2 ∧ (2 : ℚ) < 3 ∧ (3 : ℚ) < 4 ∧ (4 : ℚ) < 5 ∧ (5 : ℚ) < 6) ∨
       ((1 : ℚ) ≤ 0 ∧ (2 : ℚ) < 1 ∧ (3 : ℚ) < 2 ∧ (4 : ℚ) < 3 ∧ (5 : ℚ) < 4 ∧ (6 : ℚ) < 5))) ∧
    (7 ≤ (echoScan [(0 : ℚ), 1, 2, 3, 4, 5, 6] 0).2 →
      (echoScan [(0 : ℚ), 1, 2, 3, 4, 5, 6] 0).1 =
        [0, 0 + 1, 0 + 2, 0 + 3, 0 + 4, 0 + 5, 0 + 6]) :=
  C7_echo_window_emission [(0 : ℚ), 1, 2, 3, 4, 5, 6] 0 0 1 2 3 4 5 6
    rfl rfl rfl rfl rfl rfl rfl

/-!
## Emitted runs are non-empty

Each rule's counter is bumped at most once per loop iteration and only in
iterations that also push a point, so `cnt ≤ pts.length` throughout; an
emitted run therefore has at least threshold-many points.  In particular
the inner `[] => []` fallback of the collapse dispatchers (where the
JavaScript code would throw a `TypeError` on `z[0].toString()`) is
unreachable for reports produced by `patterns`: the five label-based rule
fields are always empty (C9), and every run the delta/echo/hotel rules
emit is non-empty.
-/

theorem deltaGo_cnt_le_len (data : List ℚ) (mean : ℚ) : ∀ (js pts : List ℕ)
    (ab : Option Bool) (cnt : ℕ), cnt ≤ pts.length →
    (deltaGo data mean js pts ab cnt).2 ≤ (deltaGo data mean js pts ab cnt).1.length := by
  intro js
  induction js with
  | nil => intro pts ab cnt h; simpa [deltaGo] using h
  | cons j js ih =>
    intro pts ab cnt h
    simp only [deltaGo]
    cases hj : data.get? j with
    | none => simp only [hj]; exact ih pts ab cnt h
    | some d =>
      simp only [hj]
      apply ih
      split_ifs <;> (try simp only [List.length_append, List.length_cons, List.length_nil]) <;> omega

theorem echoGo_cnt_le_len (data : List ℚ) : ∀ (js pts : List ℕ) (prev : ℚ) (dir : String)
    (cnt : ℕ), cnt ≤ pts.length →
    (echoGo data js pts prev dir cnt).2 ≤ (echoGo data js pts prev dir cnt).1.length := by
  intro js
  induction js with
  | nil => intro pts prev dir cnt h; simpa [echoGo] using h
  | cons j js ih =>
    intro pts prev dir cnt h
    simp only [echoGo]
    cases hj : data.get? j with
    | none => simp only [hj]; exact ih pts prev dir cnt h
    | some d =>
      simp only [hj]
      split_ifs <;> (apply ih) <;>
        (try simp only [List.length_append, List.length_cons, List.length_nil]) <;> omega

theorem hotelGo_cnt_le_len (data : List ℚ) : ∀ (js pts : List ℕ) (prev : ℚ) (dir : String)
    (cnt : ℕ), cnt ≤ pts.length →
    (hotelGo data js pts prev dir cnt).2 ≤ (hotelGo data js pts prev dir cnt).1.length := by
  intro js
  induction js with
  | nil => intro pts prev dir cnt h; simpa [hotelGo] using h
  | cons j js ih =>
    intro pts prev dir cnt h
    simp only [hotelGo]
    cases hj : data.get? j with
    | none => simp only [hj]; exact ih pts prev dir cnt h
    | some d =>
      simp only [hj]
      split_ifs <;> first
        | (simpa using h)
        | (apply ih
           simp only [List.length_append, List.length_cons, List.length_nil]
           omega)

theorem patterns_delta_runs_nonempty (data : List ℚ) (st : ExtStats) :
    ∀ r ∈ (patterns data st).delta, r ≠ [] := by
  intro r hr
  have hr' : ∃ i ∈ List.range (mkZones st.mean st.std).length,
      (if 7 ≤ (deltaScan (validate data) st.mean i).2
        then some (deltaScan (validate data) st.mean i).1 else none) = some r :=
    List.mem_filterMap.mp hr
  obtain ⟨i, _, hi⟩ := hr'
  by_cases hc : 7 ≤ (deltaScan (validate data) st.mean i).2
  · rw [if_pos hc] at hi
    have hb := deltaGo_cnt_le_len (validate data) st.mean (List.range' i 7) [] none 0
      (by simp)
    have h7 : 7 ≤ r.length := by
      rw [← Option.some_inj.mp hi]
      exact le_trans hc hb
    intro hnil
    rw [hnil] at h7
    simp at h7
  · rw [if_neg hc] at hi
    exact absurd hi (by simp)

theorem patterns_echo_runs_nonempty (data : List ℚ) (st : ExtStats) :
    ∀ r ∈ (patterns data st).echo, r ≠ [] := by
  intro r hr
  have hr' : ∃ i ∈ List.range (mkZones st.mean st.std).length,
      (if 7 ≤ (echoScan (validate data) i).2
        then some (echoScan (validate data) i).1 else none) = some r :=
    List.mem_filterMap.mp hr
  obtain ⟨i, _, hi⟩ := hr'
  by_cases hc : 7 ≤ (echoScan (validate data) i).2
  · rw [if_pos hc] at hi
    have hb := echoGo_cnt_le_len (validate data) (List.range' i 7) [] 0 "" 0 (by simp)
    have h7 : 7 ≤ r.length := by
      rw [← Option.some_inj.mp hi]
      exact le_trans hc hb
    intro hnil
    rw [hnil] at h7
    simp at h7
  · rw [if_neg hc] at hi
    exact absurd hi (by simp)

theorem patterns_hotel_runs_nonempty (data : List ℚ) (st : ExtStats) :
    ∀ r ∈ (patterns data st).hotel, r ≠ [] := by
  intro r hr
  have hr' : ∃ i ∈ List.range (mkZones st.mean st.std).length,
      (if 14 ≤ (hotelScan (validate data) i).2
        then some (hotelScan (validate data) i).1 else none) = some r :=
    List.mem_filterMap.mp hr
  obtain ⟨i, _, hi⟩ := hr'
  by_cases hc : 14 ≤ (hotelScan (validate data) i).2
  · rw [if_pos hc] at hi
    have hb := hotelGo_cnt_le_len (validate data) (List.range' i 14) [] 0 "" 0 (by simp)
    have h14 : 14 ≤ r.length := by
      rw [← Option.some_inj.mp hi]
      exact le_trans hc hb
    intro hnil
    rw [hnil] at h14
    simp at h14
  · rw [if_neg hc] at hi
    exact absurd hi (by simp)
